import Mathlib

/-!
Shallow embedding of the notification dispatch engine of
`src/functions/index.js` (Firebase trigger handlers sending transactional
email).  Pure data and decision logic are translated as executable Lean
definitions; the external collaborators (Firestore lookups, the Resend
delivery call, server timestamps) are passed in as explicit environments,
and every handler returns the list of delivery calls it issued together
with the document writes and its JS return value.  Template rendering
(the HTML/text string builders of the source) carries no decision logic
and is not modelled beyond the data that feeds it.
-/

/-- A JavaScript primitive value as it can sit in a preference field of a
user document: the gate of the source compares such a field against the
literal `false` with strict equality (`=== false`). -/
inductive JsVal where
  | undef
  | null
  | bool (b : Bool)
  | str (s : String)
  | num (n : Int)
deriving DecidableEq

/-- The three notification categories the source consults
(`emailPreferences.taskAssigned`, `.dueReminders`, `.comments`). -/
inductive Category where
  | taskAssigned
  | dueReminders
  | comments
deriving DecidableEq

/-- The `emailPreferences` object of a user document; a field the document
does not carry is `JsVal.undef`. -/
structure EmailPreferences where
  taskAssigned : JsVal
  dueReminders : JsVal
  comments : JsVal
deriving DecidableEq

/-- A user document.  `name = ""` models a missing or empty (JS-falsy)
name; `emailPreferences = none` models a document without the preferences
object (or with it null), so that optional chaining yields `undefined`. -/
structure User where
  name : String
  email : String
  emailPreferences : Option EmailPreferences
deriving DecidableEq

/-- The value the source's `user.emailPreferences?.<category>` optional
chain evaluates to: `undefined` when the preferences object is absent,
otherwise the stored field. -/
def prefField (u : User) (c : Category) : JsVal :=
  match u.emailPreferences with
  | none => JsVal.undef
  | some p =>
    match c with
    | Category.taskAssigned => p.taskAssigned
    | Category.dueReminders => p.dueReminders
    | Category.comments => p.comments

/-- The preference gate.  The source skips a recipient exactly when
`user.emailPreferences?.<category> === false` (index.js:271, 402, 507);
every other value of the field lets the email through. -/
def allows (u : User) (c : Category) : Bool :=
  if prefField u c = JsVal.bool false then false else true

/-! ### Mention extraction (index.js:489-496, 518)

The source matches `/@\[([^\]]+)\]\(([^)]+)\)/g` against the comment text:
repeated `exec` yields the non-overlapping leftmost matches, and
`text.replace(regex, "$1")` rewrites each match to its label.  Because the
two character classes exclude their own closing bracket, a greedy match
starting at a given `@` is exactly: `@[`, a nonempty run of characters up
to the first `]`, then `](`, a nonempty run up to the first `)`, then `)`;
if that fails the engine restarts one character further. -/

/-- Split a character list at the first occurrence of `stop`: the run
before it and the remainder after it, or `none` when `stop` never occurs. -/
def splitAtChar (stop : Char) : List Char → Option (List Char × List Char)
  | [] => none
  | c :: cs =>
    if c = stop then some ([], cs)
    else
      match splitAtChar stop cs with
      | some (run, rest) => some (c :: run, rest)
      | none => none

/-- Try to match one mention `@[label](userId)` at the head of the text;
on success return the label, the user id and the text after the match. -/
def parseMention : List Char → Option (String × String × List Char)
  | '@' :: '[' :: cs =>
    match splitAtChar ']' cs with
    | some (lab, rest1) =>
      if lab = [] then none
      else
        match rest1 with
        | '(' :: rest2 =>
          match splitAtChar ')' rest2 with
          | some (uid, rest3) =>
            if uid = [] then none
            else some (String.mk lab, String.mk uid, rest3)
          | none => none
        | _ => none
    | none => none
  | _ => none

/-- One scan of the text: the list of `(label, userId)` matches in order,
and the display text with each match replaced by its label.  `fuel` bounds
the recursion; every step consumes at least one character, so a fuel of
the text's length is always enough. -/
def scanGo : Nat → List Char → List (String × String) × List Char
  | 0, l => ([], l)
  | Nat.succ n, [] =>
    -- fuel left over, nothing to scan
    (let _ := n; ([], []))
  | Nat.succ n, c :: cs =>
    match parseMention (c :: cs) with
    | some (lab, uid, rest) =>
      let r := scanGo n rest
      ((lab, uid) :: r.1, lab.data ++ r.2)
    | none =>
      let r := scanGo n cs
      (r.1, c :: r.2)

/-- All regex matches of the mention pattern over a comment text together
with the `replace`-cleaned display text. -/
def scanMentions (text : String) : List (String × String) × List Char :=
  scanGo text.data.length text.data

/-- The mentioned user ids of a comment text, in match order and with
repetitions (the source deduplicates later through its `Set`). -/
def mentionUserIds (text : String) : List String :=
  (scanMentions text).1.map Prod.snd

/-- The display text the source mails out:
`comment.text.replace(mentionRegex, "$1")`. -/
def mentionCleanedText (text : String) : String :=
  String.mk (scanMentions text).2

/-! ### The recipient `Set` (index.js:481-496)

A JS `Set` iterates in insertion order and ignores a re-inserted element;
it is modelled as a duplicate-free list extended at the back. -/

/-- `Set.add`: append unless already present. -/
def jsSetAdd (s : List String) (x : String) : List String :=
  if x ∈ s then s else s ++ [x]

/-- The mention loop of the comment handler: add every mentioned user id
that is not the comment's author to the set `s`. -/
def mentionAddAll (createdBy : String) (s : List String)
    (ms : List (String × String)) : List String :=
  ms.foldl (fun acc p => if p.2 ≠ createdBy then jsSetAdd acc p.2 else acc) s

/-- The resolved recipient set of a comment event (index.js:481-496): the
task assignee when present and not the author, then every mentioned user
id that is not the author, with set semantics.  `assignedTo = ""` models a
task without assignee (JS-falsy), `createdBy` is the comment's author. -/
def commentRecipients (assignedTo createdBy : String) (text : String) : List String :=
  mentionAddAll createdBy
    (if assignedTo ≠ "" ∧ assignedTo ≠ createdBy then jsSetAdd [] assignedTo else [])
    (scanMentions text).1

/-- The mention-extraction component on its own: the ordered set of
distinct mentioned user ids of `text`, excluding `excluded` (the comment's
author), exactly as the source's loop fills its `Set`. -/
def extractMentionIds (text : String) (excluded : String) : List String :=
  mentionAddAll excluded [] (scanMentions text).1

/-! ### The invite handler `sendInviteEmail` (index.js:35-122) -/

/-- An invite document (collection `invites`). -/
structure Invite where
  status : String
  emailSent : Bool
  email : String
  role : String
  tenantName : String
  invitedBy : String
  emailSentAt : Option Nat
  emailId : Option String
  emailError : Option String
  emailAttemptedAt : Option Nat
deriving DecidableEq

/-- What one `resend.emails.send` call comes back with: a success id, an
error value in the returned object, or an exception thrown by the call. -/
inductive SendOutcome where
  | ok (eid : String)
  | errReturned (msg : String)
  | thrown (msg : String)
deriving DecidableEq

/-- One delivery call of the invite handler: the `to` address and the
inviter display name that feeds the rendered template. -/
structure InviteSendCall where
  toAddr : String
  inviter : String
deriving DecidableEq

/-- A document write of the invite handler: `markSent` updates
`{emailSent, emailSentAt, emailId}` (index.js:104-108), `markFailed`
updates `{emailError, emailAttemptedAt}` (index.js:115-118). -/
inductive InviteWrite where
  | markSent (eid : String) (sentAt : Nat)
  | markFailed (errorMsg : String) (attemptedAt : Nat)
deriving DecidableEq

/-- The value the handler settles with: `null` on a guard skip,
`{success:true, emailId}`, `{success:false, error}`, or an exception that
escaped the handler (a rejected promise). -/
inductive HandlerResult where
  | skipped
  | success (eid : String)
  | failure (error : String)
  | escaped (msg : String)
deriving DecidableEq

/-- Whether a handler result is the `{success:false, ...}` value. -/
def HandlerResult.isFailure : HandlerResult → Bool
  | HandlerResult.failure _ => true
  | _ => false

/-- The external effects one invite-handler run meets: the server
timestamp, the outcome of the (single) send call, and whether each of the
two possible `ref.update` calls throws. -/
structure InviteEffects where
  now : Nat
  send : SendOutcome
  markSentThrows : Option String
  markFailedThrows : Option String
deriving DecidableEq

/-- Everything one invite-handler run did: delivery calls issued, document
writes applied, the document afterwards, and the settled value. -/
structure InviteRun where
  deliveries : List InviteSendCall
  writes : List InviteWrite
  doc : Invite
  result : HandlerResult
deriving DecidableEq

/-- The inviter display name (index.js:61-71):
`doc.name || doc.email || "A team member"`. -/
def inviterName (users : String → Option User) (invitedBy : String) : String :=
  if invitedBy = "" then "A team member"
  else
    match users invitedBy with
    | none => "A team member"
    | some u =>
      if u.name ≠ "" then u.name
      else if u.email ≠ "" then u.email
      else "A team member"

/-- The catch block of the invite handler (index.js:111-121): write
`{emailError, emailAttemptedAt}` and settle with `{success:false}`.  The
write is not guarded; when it throws, the exception escapes the handler
with no write applied. -/
def inviteCatch (eff : InviteEffects) (invite : Invite) (call : InviteSendCall)
    (msg : String) : InviteRun :=
  match eff.markFailedThrows with
  | none =>
    ⟨[call], [InviteWrite.markFailed msg eff.now],
     { invite with emailError := some msg, emailAttemptedAt := some eff.now },
     HandlerResult.failure msg⟩
  | some m2 => ⟨[call], [], invite, HandlerResult.escaped m2⟩

/-- The invite handler (index.js:35-122).  Guards: only `pending` invites
whose `emailSent` is not set.  Then one send call; on success the
`markSent` write, with any returned error or thrown exception routed
through the catch block. -/
def sendInviteEmail (users : String → Option User) (eff : InviteEffects)
    (invite : Invite) : InviteRun :=
  if invite.status ≠ "pending" then ⟨[], [], invite, HandlerResult.skipped⟩
  else if invite.emailSent then ⟨[], [], invite, HandlerResult.skipped⟩
  else
    let call : InviteSendCall := ⟨invite.email, inviterName users invite.invitedBy⟩
    match eff.send with
    | SendOutcome.ok eid =>
      match eff.markSentThrows with
      | none =>
        ⟨[call], [InviteWrite.markSent eid eff.now],
         { invite with emailSent := true, emailSentAt := some eff.now,
                       emailId := some eid },
         HandlerResult.success eid⟩
      | some m => inviteCatch eff invite call m
    | SendOutcome.errReturned msg => inviteCatch eff invite call msg
    | SendOutcome.thrown msg => inviteCatch eff invite call msg

/-! ### The task-assignment handler `sendTaskAssignedEmail` (index.js:239-330) -/

/-- A task document as the update trigger sees it.  `assignedTo = ""` and
`updatedBy = ""` model missing (JS-falsy) fields. -/
structure TaskDoc where
  title : String
  assignedTo : String
  updatedBy : String
  status : String
  dueDate : Option Int
  priority : String
deriving DecidableEq

/-- The delivery calls of one task-update event (index.js:239-330): none
when the assignee did not change or the new assignee is empty or unknown
or has `taskAssigned === false`; otherwise one send to the new assignee's
address.  The project/tenant/assigner lookups of the source only feed the
rendered template (with placeholder fallbacks) and never change whether or
to whom the send goes. -/
def sendTaskAssignedEmail (users : String → Option User)
    (bef aft : TaskDoc) : List String :=
  if bef.assignedTo = aft.assignedTo then []
  else if aft.assignedTo = "" then []
  else
    match users aft.assignedTo with
    | none => []
    | some u => if allows u Category.taskAssigned then [u.email] else []

/-! ### The scheduled digest `sendDueDateReminders` (index.js:336-433) -/

/-- A task document as the reminder query reads it. -/
structure RTask where
  title : String
  assignedTo : String
  dueDate : Option Int
  status : String
deriving DecidableEq

/-- A project with its task documents (document id paired with data). -/
structure ProjectNode where
  pid : String
  title : String
  tasks : List (String × RTask)
deriving DecidableEq

/-- A tenant with its projects. -/
structure TenantNode where
  name : String
  slug : String
  projects : List ProjectNode
deriving DecidableEq

/-- The range query of index.js:368-375: `dueDate >= lo`, `dueDate < hi`,
`status != "done"`; a document without `dueDate` never matches a range
filter.  `lo` stands for today 00:00 and `hi` for the day after tomorrow
00:00 of the run. -/
def qualifies (lo hi : Int) (t : RTask) : Bool :=
  match t.dueDate with
  | none => false
  | some d => decide (lo ≤ d) && decide (d < hi) && (t.status != "done")

/-- One row the source pushes into `tasksByAssignee` (index.js:385-390). -/
structure TaskEntry where
  tid : String
  title : String
  projectId : String
  projectTitle : String
  dueDate : Option Int
  status : String
deriving DecidableEq

/-- Append a task to its assignee's bucket of `tasksByAssignee`; a JS
object keeps keys in insertion order, so a new key goes to the back. -/
def groupAdd (groups : List (String × List TaskEntry)) (uid : String)
    (e : TaskEntry) : List (String × List TaskEntry) :=
  match groups with
  | [] => [(uid, [e])]
  | (k, ts) :: rest =>
    if k = uid then (k, ts ++ [e]) :: rest
    else (k, ts) :: groupAdd rest uid e

/-- The `tasksByAssignee` row built for one task (index.js:385-390). -/
def taskEntry (pn : ProjectNode) (p : String × RTask) : TaskEntry :=
  ⟨p.1, p.2.title, pn.pid, pn.title, p.2.dueDate, p.2.status⟩

/-- The `tasksByAssignee` map of ONE project (index.js:377-392): the
grouping structure is declared inside the project loop, so it restarts at
every project boundary. -/
def projectGroups (lo hi : Int) (pn : ProjectNode) : List (String × List TaskEntry) :=
  (pn.tasks.filter fun p => qualifies lo hi p.2).foldl
    (fun g p =>
      if p.2.assignedTo ≠ "" then groupAdd g p.2.assignedTo (taskEntry pn p) else g)
    []

/-- One digest email as sent (index.js:406-420). -/
structure DigestEmail where
  userId : String
  email : String
  tenantName : String
  tasks : List TaskEntry
deriving DecidableEq

/-- The digest emails one project contributes (index.js:395-423): one per
grouped assignee whose user document exists and whose `dueReminders`
preference is not `false`. -/
def projectDigests (users : String → Option User) (lo hi : Int)
    (tenantName : String) (pn : ProjectNode) : List DigestEmail :=
  (projectGroups lo hi pn).filterMap fun g =>
    match users g.1 with
    | none => none
    | some u =>
      if allows u Category.dueReminders then
        some ⟨g.1, u.email, tenantName, g.2⟩
      else none

/-- Concatenation of the images of `f`, in order. -/
def concatMap (f : α → List β) : List α → List β
  | [] => []
  | a :: l => f a ++ concatMap f l

/-- The whole scheduled run (index.js:342-433): tenants in order, projects
within each tenant in order, the digest emails of each project in order. -/
def sendDueDateReminders (users : String → Option User) (lo hi : Int)
    (tenants : List TenantNode) : List DigestEmail :=
  concatMap (fun tn => concatMap (projectDigests users lo hi tn.name) tn.projects) tenants

/-! ### The comment fan-out loop (index.js:498-537)

The whole handler body sits in a single try/catch; the per-recipient loop
has no catch of its own.  A `send` whose result object carries an error is
never inspected (the source does not destructure it there), so the loop
continues; a thrown exception aborts the loop and the outer catch settles
the handler with `{success:false}`. -/

/-- The fan-out loop over the resolved recipients: returns the addresses a
delivery call was issued to, and the message of the exception that aborted
the loop, if one did. -/
def commentFanOut (users : String → Option User) (outcome : String → SendOutcome) :
    List String → List String × Option String
  | [] => ([], none)
  | uid :: rest =>
    match users uid with
    | none => commentFanOut users outcome rest
    | some u =>
      if allows u Category.comments then
        match outcome uid with
        | SendOutcome.thrown m => ([u.email], some m)
        | _ =>
          let r := commentFanOut users outcome rest
          (u.email :: r.1, r.2)
      else commentFanOut users outcome rest

/-- The comment handler's delivery behaviour (index.js:444-538): resolve
the recipient set, then fan out.  `outcome uid` is what the delivery call
for recipient `uid` comes back with. -/
def sendCommentNotification (users : String → Option User)
    (outcome : String → SendOutcome) (assignedTo createdBy : String)
    (text : String) : List String × Option String :=
  commentFanOut users outcome (commentRecipients assignedTo createdBy text)

/-! ### The scheduled run with delivery outcomes (index.js:342-433)

Like the comment handler, the whole scheduled job sits in ONE try/catch
(index.js:350-431): the per-assignee send loop, the project loop and the
tenant loop have no catch of their own.  The result object of each send is
never destructured there, so a returned error value is ignored and the
loops continue; a thrown exception aborts everything that remains — later
grouped assignees, later projects, later tenants — and the catch settles
the run with `{success:false}`.  `outcome pid uid` is what the delivery
call for assignee `uid` in project `pid` comes back with. -/

/-- The per-project send loop over the grouped assignees
(index.js:395-423): look the user up (skip when missing), apply the
preference gate, issue the send.  Returns the digest emails a delivery
call was issued for and the message of the exception that aborted the
loop, if one did. -/
def digestFanOut (users : String → Option User)
    (outcome : String → String → SendOutcome) (tname pid : String) :
    List (String × List TaskEntry) → List DigestEmail × Option String
  | [] => ([], none)
  | g :: rest =>
    match users g.1 with
    | none => digestFanOut users outcome tname pid rest
    | some u =>
      if allows u Category.dueReminders then
        match outcome pid g.1 with
        | SendOutcome.thrown m => ([⟨g.1, u.email, tname, g.2⟩], some m)
        | _ =>
          let r := digestFanOut users outcome tname pid rest
          (⟨g.1, u.email, tname, g.2⟩ :: r.1, r.2)
      else digestFanOut users outcome tname pid rest

/-- One project of the scheduled run: query, group, then send. -/
def projectReminderRun (users : String → Option User)
    (outcome : String → String → SendOutcome) (lo hi : Int)
    (tname : String) (pn : ProjectNode) : List DigestEmail × Option String :=
  digestFanOut users outcome tname pn.pid (projectGroups lo hi pn)

/-- Run steps in order, stopping at the first one that throws: the effects
of the completed steps stay, everything after the throw is skipped. -/
def runSeq (f : α → List DigestEmail × Option String) :
    List α → List DigestEmail × Option String
  | [] => ([], none)
  | a :: l =>
    match f a with
    | (es, some m) => (es, some m)
    | (es, none) =>
      let r := runSeq f l
      (es ++ r.1, r.2)

/-- One tenant of the scheduled run: its projects in order. -/
def tenantReminderRun (users : String → Option User)
    (outcome : String → String → SendOutcome) (lo hi : Int)
    (tn : TenantNode) : List DigestEmail × Option String :=
  runSeq (projectReminderRun users outcome lo hi tn.name) tn.projects

/-- The whole scheduled handler with delivery outcomes: the digest emails
delivery calls were issued for, and `some msg` when an exception reached
the run-level catch (the handler then settles `{success:false}`),
`none` when it settles `{success:true}`. -/
def sendDueDateRemindersRun (users : String → Option User)
    (outcome : String → String → SendOutcome) (lo hi : Int)
    (tenants : List TenantNode) : List DigestEmail × Option String :=
  runSeq (tenantReminderRun users outcome lo hi) tenants

/-! ### Concrete documents and stores used by witnesses and counterexamples -/

/-- A pending, not yet sent invite. -/
def inviteEx : Invite :=
  ⟨"pending", false, "guest@example.org", "member", "Acme", "u1",
   none, none, none, none⟩

/-- A user store in which every preference is explicitly `false`. -/
def allOptedOutUsers : String → Option User := fun _ =>
  some ⟨"N", "n@x",
        some ⟨JsVal.bool false, JsVal.bool false, JsVal.bool false⟩⟩

/-- The user store of the comment counterexample: two registered
recipients with no preference object. -/
def c3Users : String → Option User := fun uid =>
  if uid = "u2" then some ⟨"B", "e2@x", none⟩
  else if uid = "u3" then some ⟨"C", "e3@x", none⟩
  else none

/-- Delivery outcomes of the comment counterexample: the call for `u2`
throws, every other call succeeds. -/
def c3Outcome : String → SendOutcome := fun uid =>
  if uid = "u2" then SendOutcome.thrown "net down" else SendOutcome.ok "i1"

/-- The task documents of the task-assignment counterexample: `u9`
assigns the task to themselves. -/
def c4Before : TaskDoc := ⟨"T", "", "", "open", none, "medium"⟩

/-- The after state of the task-assignment counterexample. -/
def c4After : TaskDoc := ⟨"T", "u9", "u9", "open", none, "medium"⟩

/-- The user store of the task-assignment counterexample. -/
def c4Users : String → Option User := fun uid =>
  if uid = "u9" then some ⟨"Nine", "u9@x", none⟩ else none

/-- The user store of the digest examples: users `A` and `B`, no
preference objects. -/
def digestUsers : String → Option User := fun uid =>
  if uid = "A" then some ⟨"Ann", "a@x", none⟩
  else if uid = "B" then some ⟨"Bob", "b@x", none⟩
  else none

/-- One tenant with two projects, each holding one qualifying task of
assignee `A` (the per-tenant-grouping counterexample). -/
def twoProjectTenant : TenantNode :=
  ⟨"T", "t",
   [⟨"p1", "P1", [("t1", ⟨"x1", "A", some 0, "open"⟩)]⟩,
    ⟨"p2", "P2", [("t2", ⟨"x2", "A", some 0, "open"⟩)]⟩]⟩

/-- One tenant with one project holding the spec's three-task example:
two qualifying tasks of `A` (due today and tomorrow), one of `B`. -/
def threeTaskTenant : TenantNode :=
  ⟨"T", "t",
   [⟨"p1", "P1",
     [("t1", ⟨"x1", "A", some 0, "open"⟩),
      ("t2", ⟨"x2", "A", some 1, "open"⟩),
      ("t3", ⟨"x3", "B", some 0, "open"⟩)]⟩]⟩

/-! ## Helper lemmas -/

/-- Unfolding of the recipient-set fold over one more match. -/
theorem mentionAddAll_cons (cb : String) (s : List String) (p : String × String)
    (ms : List (String × String)) :
    mentionAddAll cb s (p :: ms)
      = mentionAddAll cb (if p.2 ≠ cb then jsSetAdd s p.2 else s) ms := rfl

/-- Membership in a JS set after an `add`. -/
theorem mem_jsSetAdd (s : List String) (x y : String) :
    y ∈ jsSetAdd s x ↔ y ∈ s ∨ y = x := by
  unfold jsSetAdd
  split
  · rename_i hx
    constructor
    · exact fun h => Or.inl h
    · rintro (h | rfl)
      · exact h
      · exact hx
  · simp

/-- `add` keeps a JS set duplicate free. -/
theorem nodup_jsSetAdd (s : List String) (x : String) (h : s.Nodup) :
    (jsSetAdd s x).Nodup := by
  unfold jsSetAdd
  split
  · exact h
  · rename_i hx
    simp [List.nodup_append, h, hx]

/-- Membership after folding all matches into the recipient set. -/
theorem mem_mentionAddAll (cb y : String) (ms : List (String × String)) :
    ∀ s : List String,
      y ∈ mentionAddAll cb s ms ↔ y ∈ s ∨ (y ≠ cb ∧ ∃ p ∈ ms, p.2 = y) := by
  induction ms with
  | nil => intro s; simp [mentionAddAll]
  | cons p ms ih =>
    intro s
    rw [mentionAddAll_cons, ih]
    by_cases hp : p.2 = cb
    · rw [if_neg (by simp [hp])]
      constructor
      · rintro (h | ⟨hy, q, hq, hqy⟩)
        · exact Or.inl h
        · exact Or.inr ⟨hy, q, List.mem_cons_of_mem _ hq, hqy⟩
      · rintro (h | ⟨hy, q, hq, hqy⟩)
        · exact Or.inl h
        · rcases List.mem_cons.mp hq with rfl | hq'
          · exact absurd (hqy ▸ hp) hy
          · exact Or.inr ⟨hy, q, hq', hqy⟩
    · rw [if_pos hp]
      rw [mem_jsSetAdd]
      constructor
      · rintro ((h | rfl) | ⟨hy, q, hq, hqy⟩)
        · exact Or.inl h
        · exact Or.inr ⟨hp, p, List.mem_cons_self _ _, rfl⟩
        · exact Or.inr ⟨hy, q, List.mem_cons_of_mem _ hq, hqy⟩
      · rintro (h | ⟨hy, q, hq, hqy⟩)
        · exact Or.inl (Or.inl h)
        · rcases List.mem_cons.mp hq with rfl | hq'
          · exact Or.inl (Or.inr hqy.symm)
          · exact Or.inr ⟨hy, q, hq', hqy⟩

/-- The fold keeps the recipient set duplicate free. -/
theorem nodup_mentionAddAll (cb : String) (ms : List (String × String)) :
    ∀ s : List String, s.Nodup → (mentionAddAll cb s ms).Nodup := by
  induction ms with
  | nil => intro s h; simpa [mentionAddAll] using h
  | cons p ms ih =>
    intro s h
    rw [mentionAddAll_cons]
    refine ih _ ?_
    split
    · exact nodup_jsSetAdd _ _ h
    · exact h

/-- A user id is a mentioned id exactly when some match carries it. -/
theorem mem_mentionUserIds (text : String) (y : String) :
    y ∈ mentionUserIds text ↔ ∃ p ∈ (scanMentions text).1, p.2 = y := by
  unfold mentionUserIds
  simp [List.mem_map]

/-! ## Claim theorems -/

/-- C5: the preference gate denies a category if and only if the stored
field is strictly the boolean `false`; a missing preferences object, an
`undefined` or `null` field, and every other value allow delivery
(opt-out default). -/
theorem c5_preference_gate (u : User) (c : Category) :
    (allows u c = false ↔ prefField u c = JsVal.bool false)
    ∧ (u.emailPreferences = none → allows u c = true)
    ∧ (prefField u c = JsVal.undef → allows u c = true)
    ∧ (prefField u c = JsVal.null → allows u c = true)
    ∧ ∀ v : JsVal, prefField u c = v → v ≠ JsVal.bool false → allows u c = true := by
  have key : allows u c = false ↔ prefField u c = JsVal.bool false := by
    unfold allows
    split
    · rename_i h; simp [h]
    · rename_i h; simp [h]
  have key2 : ∀ v : JsVal, prefField u c = v → v ≠ JsVal.bool false → allows u c = true := by
    intro v hv hne
    unfold allows
    rw [hv, if_neg hne]
  refine ⟨key, ?_, fun h => key2 _ h (by decide), fun h => key2 _ h (by decide), key2⟩
  intro h
  exact key2 JsVal.undef (by unfold prefField; rw [h]) (by decide)

/-- Witness for C5 at a concrete input: a user with no preferences object
is allowed the `comments` category. -/
theorem c5_preference_gate_witness :
    allows ⟨"", "a@x", none⟩ Category.comments = true :=
  (c5_preference_gate ⟨"", "a@x", none⟩ Category.comments).2.1 rfl

/-- C6: the resolved recipient set of a comment event is
`{task.assignedTo} ∪ mentionedUserIds`, each element excluding the
comment's author, with set semantics: the author is never in it, it holds
no duplicates, and membership is exactly assignee-or-mentioned minus the
author. -/
theorem c6_comment_recipient_set (assignedTo createdBy text u) :
    createdBy ∉ commentRecipients assignedTo createdBy text
    ∧ (commentRecipients assignedTo createdBy text).Nodup
    ∧ (u ∈ commentRecipients assignedTo createdBy text ↔
        u ≠ createdBy ∧ ((u = assignedTo ∧ assignedTo ≠ "") ∨ u ∈ mentionUserIds text)) := by
  have seed : ∀ y, y ∈ (if assignedTo ≠ "" ∧ assignedTo ≠ createdBy
        then jsSetAdd [] assignedTo else ([] : List String))
      ↔ (assignedTo ≠ "" ∧ assignedTo ≠ createdBy ∧ y = assignedTo) := by
    intro y
    split
    · rename_i h
      rw [mem_jsSetAdd]
      simp [h.1, h.2]
    · rename_i h
      simp only [List.not_mem_nil, false_iff]
      intro hc
      exact h ⟨hc.1, hc.2.1⟩
  have memb : ∀ y, y ∈ commentRecipients assignedTo createdBy text ↔
      y ≠ createdBy ∧ ((y = assignedTo ∧ assignedTo ≠ "") ∨ y ∈ mentionUserIds text) := by
    intro y
    unfold commentRecipients
    rw [mem_mentionAddAll, seed, mem_mentionUserIds]
    constructor
    · rintro (⟨hne, hncb, rfl⟩ | ⟨hy, hp⟩)
      · exact ⟨hncb, Or.inl ⟨rfl, hne⟩⟩
      · exact ⟨hy, Or.inr hp⟩
    · rintro ⟨hy, ⟨rfl, hne⟩ | hp⟩
      · exact Or.inl ⟨hne, hy, rfl⟩
      · exact Or.inr ⟨hy, hp⟩
  refine ⟨?_, ?_, memb u⟩
  · intro h
    exact ((memb createdBy).mp h).1 rfl
  · unfold commentRecipients
    refine nodup_mentionAddAll _ _ _ ?_
    split
    · exact nodup_jsSetAdd _ _ List.nodup_nil
    · exact List.nodup_nil

/-- Witness for C6 at a concrete input: the author `u1` is not notified
about their own comment even though it mentions them. -/
theorem c6_comment_recipient_set_witness :
    "u1" ∉ commentRecipients "a1" "u1" "hi @[Me](u1) and @[B](u2)" :=
  (c6_comment_recipient_set "a1" "u1" "hi @[Me](u1) and @[B](u2)" "z").1

/-- C7: mention extraction yields the ordered set of distinct mentioned
user ids, excluding the given author, counting a repeated mention once;
on the spec's example the set is exactly `["u2"]` and the display text
replaces each mention markup by its label. -/
theorem c7_mention_extraction :
    (∀ text ex, (extractMentionIds text ex).Nodup
      ∧ ex ∉ extractMentionIds text ex
      ∧ ∀ u, (u ∈ extractMentionIds text ex ↔ u ≠ ex ∧ u ∈ mentionUserIds text))
    ∧ extractMentionIds "ping @[Bob](u2) and @[Bob](u2) again" "u1" = ["u2"]
    ∧ mentionCleanedText "ping @[Bob](u2) and @[Bob](u2) again" = "ping Bob and Bob again" := by
  refine ⟨fun text ex => ?_, rfl, rfl⟩
  have memb : ∀ u, u ∈ extractMentionIds text ex ↔ u ≠ ex ∧ u ∈ mentionUserIds text := by
    intro u
    unfold extractMentionIds
    rw [mem_mentionAddAll, mem_mentionUserIds]
    simp
  refine ⟨?_, ?_, memb⟩
  · exact nodup_mentionAddAll _ _ _ List.nodup_nil
  · intro h
    exact ((memb ex).mp h).1 rfl

/-- Witness for C7: the spec's example evaluated through the theorem. -/
theorem c7_mention_extraction_witness :
    extractMentionIds "ping @[Bob](u2) and @[Bob](u2) again" "u1" = ["u2"] :=
  c7_mention_extraction.2.1

/-- A non-pending or already-sent invite is a guard skip with no effects. -/
theorem sendInviteEmail_guard (users : String → Option User) (eff : InviteEffects)
    (invite : Invite) (h : invite.status ≠ "pending" ∨ invite.emailSent = true) :
    sendInviteEmail users eff invite = ⟨[], [], invite, HandlerResult.skipped⟩ := by
  unfold sendInviteEmail
  rcases h with h | h
  · rw [if_pos h]
  · by_cases hs : invite.status ≠ "pending"
    · rw [if_pos hs]
    · rw [if_neg hs, if_pos h]

/-- The success path: guards pass, the send succeeds and the `markSent`
write goes through. -/
theorem sendInviteEmail_success (users : String → Option User) (eff : InviteEffects)
    (invite : Invite) (eid : String)
    (hst : invite.status = "pending") (hes : invite.emailSent = false)
    (hsend : eff.send = SendOutcome.ok eid) (hms : eff.markSentThrows = none) :
    sendInviteEmail users eff invite =
      ⟨[⟨invite.email, inviterName users invite.invitedBy⟩],
       [InviteWrite.markSent eid eff.now],
       { invite with emailSent := true, emailSentAt := some eff.now,
                     emailId := some eid },
       HandlerResult.success eid⟩ := by
  unfold sendInviteEmail
  rw [if_neg (by simp [hst]), if_neg (by simp [hes]), hsend, hms]

/-- The failure path: guards pass and the run throws — a returned send
error, a thrown send exception, or a `markSent` write that throws — so the
catch block runs with that message. -/
theorem sendInviteEmail_catch (users : String → Option User) (eff : InviteEffects)
    (invite : Invite) (msg : String)
    (hst : invite.status = "pending") (hes : invite.emailSent = false)
    (h : eff.send = SendOutcome.errReturned msg ∨ eff.send = SendOutcome.thrown msg
         ∨ ∃ eid, eff.send = SendOutcome.ok eid ∧ eff.markSentThrows = some msg) :
    sendInviteEmail users eff invite
      = inviteCatch eff invite ⟨invite.email, inviterName users invite.invitedBy⟩ msg := by
  unfold sendInviteEmail
  rw [if_neg (by simp [hst]), if_neg (by simp [hes])]
  rcases h with h | h | ⟨eid, h, hms⟩
  · rw [h]
  · rw [h]
  · rw [h, hms]

/-- C1: an invite event whose document is not pending or already has
`emailSent` produces zero delivery calls and zero writes; and a second
sequential invocation after a first successful one (which set
`emailSent = true`) is a guard skip, so the two runs issue exactly one
delivery call in total. -/
theorem c1_invite_guard_idempotency (users users2 : String → Option User)
    (eff eff2 : InviteEffects) (invite : Invite) :
    ((invite.status ≠ "pending" ∨ invite.emailSent = true) →
      sendInviteEmail users eff invite = ⟨[], [], invite, HandlerResult.skipped⟩)
    ∧ ∀ eid, invite.status = "pending" → invite.emailSent = false →
        eff.send = SendOutcome.ok eid → eff.markSentThrows = none →
        (sendInviteEmail users eff invite).doc.emailSent = true
        ∧ (sendInviteEmail users eff invite).deliveries.length = 1
        ∧ (sendInviteEmail users2 eff2 (sendInviteEmail users eff invite).doc).deliveries = []
        ∧ (sendInviteEmail users eff invite).deliveries.length
            + (sendInviteEmail users2 eff2 (sendInviteEmail users eff invite).doc).deliveries.length
            = 1 := by
  refine ⟨sendInviteEmail_guard users eff invite, ?_⟩
  intro eid hst hes hsend hms
  rw [sendInviteEmail_success users eff invite eid hst hes hsend hms]
  have h2 : sendInviteEmail users2 eff2
      ({ invite with emailSent := true, emailSentAt := some eff.now,
                     emailId := some eid })
      = ⟨[], [], { invite with emailSent := true, emailSentAt := some eff.now,
                               emailId := some eid }, HandlerResult.skipped⟩ :=
    sendInviteEmail_guard users2 eff2 _ (Or.inr rfl)
  rw [h2]
  exact ⟨rfl, rfl, rfl, rfl⟩

/-- Witness for C1: a concrete pending invite, the first run delivers and
the second run on its written document is a guard skip — one call total. -/
theorem c1_invite_guard_idempotency_witness :
    (sendInviteEmail (fun _ => none) ⟨3, SendOutcome.ok "e9", none, none⟩ inviteEx).deliveries.length
      + (sendInviteEmail (fun _ => none) ⟨4, SendOutcome.ok "e9", none, none⟩
          (sendInviteEmail (fun _ => none) ⟨3, SendOutcome.ok "e9", none, none⟩ inviteEx).doc).deliveries.length
      = 1 :=
  ((c1_invite_guard_idempotency (fun _ => none) (fun _ => none)
      ⟨3, SendOutcome.ok "e9", none, none⟩ ⟨4, SendOutcome.ok "e9", none, none⟩
      inviteEx).2 "e9" rfl rfl rfl rfl).2.2.2

/-- C10 (implicit): invite delivery is never filtered by the preference
gate — whenever the pending/unsent guard passes, exactly one delivery call
to the invite's own email address is attempted, for EVERY user store,
whatever any user's `emailPreferences` hold. -/
theorem c10_invite_ignores_preferences (users : String → Option User)
    (eff : InviteEffects) (invite : Invite) :
    invite.status = "pending" → invite.emailSent = false →
    (sendInviteEmail users eff invite).deliveries.map InviteSendCall.toAddr
      = [invite.email] := by
  intro hst hes
  unfold sendInviteEmail
  rw [if_neg (by simp [hst]), if_neg (by simp [hes])]
  rcases eff.send with eid | msg | msg
  · rcases hms : eff.markSentThrows with _ | m
    · rfl
    · unfold inviteCatch
      rcases eff.markFailedThrows with _ | m2 <;> rfl
  · unfold inviteCatch
    rcases eff.markFailedThrows with _ | m2 <;> rfl
  · unfold inviteCatch
    rcases eff.markFailedThrows with _ | m2 <;> rfl

/-- Witness for C10: a user store in which every preference is `false`
still gets the invite email delivered to the invite's address. -/
theorem c10_invite_ignores_preferences_witness :
    (sendInviteEmail allOptedOutUsers ⟨0, SendOutcome.ok "e1", none, none⟩ inviteEx).deliveries.map
        InviteSendCall.toAddr
      = [inviteEx.email] :=
  c10_invite_ignores_preferences allOptedOutUsers ⟨0, SendOutcome.ok "e1", none, none⟩ inviteEx rfl rfl

/-- C9 (amended): when delivery returns an error or any exception is
raised after the guards pass, and the failure-recording write itself goes
through, the handler writes exactly `{emailError, emailAttemptedAt}`,
leaves `emailSent` unchanged and returns a failure result; but the write
is NOT protected — when it throws, the exception escapes the handler (no
write applied, no failure result returned). -/
theorem c9_invite_failure_recording (users : String → Option User)
    (eff : InviteEffects) (invite : Invite) (msg : String) :
    invite.status = "pending" → invite.emailSent = false →
    (eff.send = SendOutcome.errReturned msg ∨ eff.send = SendOutcome.thrown msg
      ∨ ∃ eid, eff.send = SendOutcome.ok eid ∧ eff.markSentThrows = some msg) →
    ((eff.markFailedThrows = none →
        (sendInviteEmail users eff invite).writes = [InviteWrite.markFailed msg eff.now]
        ∧ (sendInviteEmail users eff invite).doc.emailSent = invite.emailSent
        ∧ (sendInviteEmail users eff invite).doc.emailError = some msg
        ∧ (sendInviteEmail users eff invite).doc.emailAttemptedAt = some eff.now
        ∧ (sendInviteEmail users eff invite).result = HandlerResult.failure msg)
      ∧ ∀ m2, eff.markFailedThrows = some m2 →
          (sendInviteEmail users eff invite).result = HandlerResult.escaped m2
          ∧ (sendInviteEmail users eff invite).writes = []
          ∧ (sendInviteEmail users eff invite).doc = invite) := by
  intro hst hes h
  rw [sendInviteEmail_catch users eff invite msg hst hes h]
  unfold inviteCatch
  constructor
  · intro hmf
    rw [hmf]
    exact ⟨rfl, rfl, rfl, rfl, rfl⟩
  · intro m2 hmf
    rw [hmf]
    exact ⟨rfl, rfl, rfl⟩

/-- Witness for C9 at a concrete input: a returned delivery error with a
succeeding failure write leaves exactly the error-trail write. -/
theorem c9_invite_failure_recording_witness :
    (sendInviteEmail (fun _ => none) ⟨7, SendOutcome.errReturned "boom", none, none⟩ inviteEx).writes
      = [InviteWrite.markFailed "boom" 7] :=
  ((c9_invite_failure_recording (fun _ => none)
      ⟨7, SendOutcome.errReturned "boom", none, none⟩ inviteEx "boom"
      rfl rfl (Or.inl rfl)).1 rfl).1

/-- C9 counterexample: with a failing delivery AND a failure-recording
write that itself throws, the handler does not return a failure result —
the exception escapes — contradicting the claim that the write is
best-effort and never escalates out of the handler. -/
theorem c9_invite_failure_recording_counterexample :
    (sendInviteEmail (fun _ => none)
        ⟨7, SendOutcome.errReturned "boom", none, some "db down"⟩ inviteEx).result
      = HandlerResult.escaped "db down"
    ∧ HandlerResult.isFailure
        (sendInviteEmail (fun _ => none)
          ⟨7, SendOutcome.errReturned "boom", none, some "db down"⟩ inviteEx).result
      = false := ⟨rfl, rfl⟩

/-- C4 (amended): a task-update event delivers exactly when `assignedTo`
changed, the new assignee is non-empty, their user document exists and
their `taskAssigned` preference is not `false`; the single recipient is
the new assignee's address.  There is no updater exclusion: the value of
`updatedBy` never suppresses the delivery (the source only reads it for
the assigner's display name). -/
theorem c4_task_assignment_delivery (users : String → Option User)
    (bef aft : TaskDoc) :
    ((bef.assignedTo = aft.assignedTo ∨ aft.assignedTo = "") →
      sendTaskAssignedEmail users bef aft = [])
    ∧ (users aft.assignedTo = none → sendTaskAssignedEmail users bef aft = [])
    ∧ (∀ u, bef.assignedTo ≠ aft.assignedTo → aft.assignedTo ≠ "" →
        users aft.assignedTo = some u → allows u Category.taskAssigned = false →
        sendTaskAssignedEmail users bef aft = [])
    ∧ (∀ u, bef.assignedTo ≠ aft.assignedTo → aft.assignedTo ≠ "" →
        users aft.assignedTo = some u → allows u Category.taskAssigned = true →
        sendTaskAssignedEmail users bef aft = [u.email]) := by
  refine ⟨?_, ?_, ?_, ?_⟩
  · intro h
    unfold sendTaskAssignedEmail
    rcases h with h | h
    · rw [if_pos h]
    · by_cases hb : bef.assignedTo = aft.assignedTo
      · rw [if_pos hb]
      · rw [if_neg hb, if_pos h]
  · intro hu
    unfold sendTaskAssignedEmail
    by_cases hb : bef.assignedTo = aft.assignedTo
    · rw [if_pos hb]
    · rw [if_neg hb]
      by_cases he : aft.assignedTo = ""
      · rw [if_pos he]
      · rw [if_neg he, hu]
  · intro u hb he hu hal
    unfold sendTaskAssignedEmail
    rw [if_neg hb, if_neg he, hu]
    simp [hal]
  · intro u hb he hu hal
    unfold sendTaskAssignedEmail
    rw [if_neg hb, if_neg he, hu]
    simp [hal]

/-- Witness for C4 at a concrete input: assigning to a registered user
with no preference object delivers to their address. -/
theorem c4_task_assignment_delivery_witness :
    sendTaskAssignedEmail c4Users c4Before c4After = ["u9@x"] :=
  (c4_task_assignment_delivery c4Users c4Before c4After).2.2.2
    ⟨"Nine", "u9@x", none⟩ (by decide) (by decide) rfl rfl

/-- C4 counterexample: `u9` assigns the task to themselves
(`after.assignedTo = after.updatedBy = "u9"`) and the handler still issues
one delivery call, contradicting the claim that a self-assignment produces
zero delivery calls. -/
theorem c4_task_assignment_delivery_counterexample :
    c4After.assignedTo = c4After.updatedBy
    ∧ sendTaskAssignedEmail c4Users c4Before c4After = ["u9@x"] := ⟨rfl, rfl⟩

/-- Unfolding of the fan-out loop for a recipient without a user record. -/
theorem commentFanOut_cons_none (users : String → Option User)
    (outcome : String → SendOutcome) (uid : String) (rest : List String)
    (hu : users uid = none) :
    commentFanOut users outcome (uid :: rest) = commentFanOut users outcome rest := by
  simp only [commentFanOut]
  rw [hu]

/-- Unfolding of the fan-out loop for a recipient who opted out. -/
theorem commentFanOut_cons_denied (users : String → Option User)
    (outcome : String → SendOutcome) (uid : String) (rest : List String)
    (u : User) (hu : users uid = some u)
    (hal : allows u Category.comments = false) :
    commentFanOut users outcome (uid :: rest) = commentFanOut users outcome rest := by
  simp only [commentFanOut]
  rw [hu]
  simp [hal]

/-- Unfolding of the fan-out loop for an eligible recipient whose delivery
call does not throw. -/
theorem commentFanOut_cons_sent (users : String → Option User)
    (outcome : String → SendOutcome) (uid : String) (rest : List String)
    (u : User) (hu : users uid = some u)
    (hal : allows u Category.comments = true)
    (hnt : ∀ m, outcome uid ≠ SendOutcome.thrown m) :
    commentFanOut users outcome (uid :: rest)
      = (u.email :: (commentFanOut users outcome rest).1,
         (commentFanOut users outcome rest).2) := by
  simp only [commentFanOut]
  rw [hu]
  rcases ho : outcome uid with eid | m | m
  · simp [hal]
  · simp [hal]
  · exact absurd ho (hnt m)

/-- When no delivery call throws, the fan-out loop reaches every eligible
recipient and the run-level catch never fires. -/
theorem commentFanOut_noThrow (users : String → Option User)
    (outcome : String → SendOutcome)
    (hnt : ∀ uid m, outcome uid ≠ SendOutcome.thrown m) :
    ∀ recips : List String,
      (commentFanOut users outcome recips).2 = none
      ∧ ∀ uid u, uid ∈ recips → users uid = some u →
          allows u Category.comments = true →
          u.email ∈ (commentFanOut users outcome recips).1 := by
  intro recips
  induction recips with
  | nil => exact ⟨rfl, by intro uid u h; cases h⟩
  | cons uid rest ih =>
    rcases hu : users uid with _ | u
    · rw [commentFanOut_cons_none users outcome uid rest hu]
      refine ⟨ih.1, ?_⟩
      intro v w hv hw hal
      rcases List.mem_cons.mp hv with rfl | hv'
      · rw [hu] at hw; cases hw
      · exact ih.2 v w hv' hw hal
    · by_cases hal : allows u Category.comments = true
      · rw [commentFanOut_cons_sent users outcome uid rest u hu hal (hnt uid)]
        refine ⟨ih.1, ?_⟩
        intro v w hv hw halw
        rcases List.mem_cons.mp hv with rfl | hv'
        · rw [hu] at hw
          injection hw with hw
          subst hw
          exact List.mem_cons_self _ _
        · exact List.mem_cons_of_mem _ (ih.2 v w hv' hw halw)
      · rw [commentFanOut_cons_denied users outcome uid rest u hu
            (by revert hal; cases allows u Category.comments <;> simp)]
        refine ⟨ih.1, ?_⟩
        intro v w hv hw halw
        rcases List.mem_cons.mp hv with rfl | hv'
        · rw [hu] at hw
          injection hw with hw
          subst hw
          exact absurd halw hal
        · exact ih.2 v w hv' hw halw

/-- A delivery call that throws for the first eligible recipient ends the
loop at once: only that one call was issued and the run surfaces the
exception, whatever recipients were still pending. -/
theorem commentFanOut_abort (users : String → Option User)
    (outcome : String → SendOutcome) (uid : String) (rest : List String)
    (u : User) (m : String)
    (hu : users uid = some u) (hal : allows u Category.comments = true)
    (ho : outcome uid = SendOutcome.thrown m) :
    commentFanOut users outcome (uid :: rest) = ([u.email], some m) := by
  simp only [commentFanOut]
  rw [hu, ho]
  simp [hal]

/-- Unfolding of the digest send loop for an assignee without a user
record. -/
theorem digestFanOut_cons_none (users : String → Option User)
    (outcome : String → String → SendOutcome) (tname pid : String)
    (g : String × List TaskEntry) (rest : List (String × List TaskEntry))
    (hu : users g.1 = none) :
    digestFanOut users outcome tname pid (g :: rest)
      = digestFanOut users outcome tname pid rest := by
  simp only [digestFanOut]
  rw [hu]

/-- Unfolding of the digest send loop for an assignee who opted out. -/
theorem digestFanOut_cons_denied (users : String → Option User)
    (outcome : String → String → SendOutcome) (tname pid : String)
    (g : String × List TaskEntry) (rest : List (String × List TaskEntry))
    (u : User) (hu : users g.1 = some u)
    (hal : allows u Category.dueReminders = false) :
    digestFanOut users outcome tname pid (g :: rest)
      = digestFanOut users outcome tname pid rest := by
  simp only [digestFanOut]
  rw [hu]
  simp [hal]

/-- Unfolding of the digest send loop for an eligible assignee whose
delivery call does not throw. -/
theorem digestFanOut_cons_sent (users : String → Option User)
    (outcome : String → String → SendOutcome) (tname pid : String)
    (g : String × List TaskEntry) (rest : List (String × List TaskEntry))
    (u : User) (hu : users g.1 = some u)
    (hal : allows u Category.dueReminders = true)
    (hnt : ∀ m, outcome pid g.1 ≠ SendOutcome.thrown m) :
    digestFanOut users outcome tname pid (g :: rest)
      = (⟨g.1, u.email, tname, g.2⟩ :: (digestFanOut users outcome tname pid rest).1,
         (digestFanOut users outcome tname pid rest).2) := by
  simp only [digestFanOut]
  rw [hu]
  rcases ho : outcome pid g.1 with eid | m | m
  · simp [hal]
  · simp [hal]
  · exact absurd ho (hnt m)

/-- A delivery call that throws for the first eligible grouped assignee of
a project ends that project's send loop at once: one call issued, the
exception surfaces, the remaining assignees are skipped. -/
theorem digestFanOut_abort (users : String → Option User)
    (outcome : String → String → SendOutcome) (tname pid : String)
    (g : String × List TaskEntry) (rest : List (String × List TaskEntry))
    (u : User) (m : String)
    (hu : users g.1 = some u) (hal : allows u Category.dueReminders = true)
    (ho : outcome pid g.1 = SendOutcome.thrown m) :
    digestFanOut users outcome tname pid (g :: rest)
      = ([⟨g.1, u.email, tname, g.2⟩], some m) := by
  simp only [digestFanOut]
  rw [hu, ho]
  simp [hal]

/-- When no delivery call of a project throws, its send loop delivers
exactly the project's digests. -/
theorem digestFanOut_noThrow (users : String → Option User)
    (outcome : String → String → SendOutcome) (tname pid : String)
    (hnt : ∀ uid m, outcome pid uid ≠ SendOutcome.thrown m) :
    ∀ groups : List (String × List TaskEntry),
      digestFanOut users outcome tname pid groups
        = (groups.filterMap (fun g =>
            match users g.1 with
            | none => none
            | some u =>
              if allows u Category.dueReminders then
                some ⟨g.1, u.email, tname, g.2⟩
              else none), none) := by
  intro groups
  induction groups with
  | nil => rfl
  | cons g rest ih =>
    rcases hu : users g.1 with _ | u
    · rw [digestFanOut_cons_none users outcome tname pid g rest hu, ih,
          List.filterMap_cons]
      simp [hu]
    · by_cases hal : allows u Category.dueReminders = true
      · rw [digestFanOut_cons_sent users outcome tname pid g rest u hu hal (hnt g.1), ih,
            List.filterMap_cons]
        simp [hu, hal]
      · have hal' : allows u Category.dueReminders = false := by
          revert hal
          cases allows u Category.dueReminders <;> simp
        rw [digestFanOut_cons_denied users outcome tname pid g rest u hu hal', ih,
            List.filterMap_cons]
        simp [hu, hal']

/-- A step of a sequenced run that throws stops the run there: its own
effects stand, every later step is skipped and the exception surfaces. -/
theorem runSeq_abort (f : α → List DigestEmail × Option String)
    (a : α) (l : List α) (es : List DigestEmail) (m : String)
    (h : f a = (es, some m)) :
    runSeq f (a :: l) = (es, some m) := by
  simp only [runSeq]
  rw [h]

/-- `concatMap` only depends on the function's values on the list. -/
theorem concatMap_congr (f g : α → List β) (l : List α)
    (h : ∀ a ∈ l, f a = g a) : concatMap f l = concatMap g l := by
  induction l with
  | nil => rfl
  | cons a l ih =>
    simp only [concatMap]
    rw [h a (List.mem_cons_self _ _), ih (fun b hb => h b (List.mem_cons_of_mem _ hb))]

/-- A sequenced run none of whose steps throws runs every step and
concatenates their effects. -/
theorem runSeq_noThrow (f : α → List DigestEmail × Option String) :
    ∀ l : List α, (∀ a ∈ l, (f a).2 = none) →
      runSeq f l = (concatMap (fun a => (f a).1) l, none) := by
  intro l
  induction l with
  | nil => intro _; rfl
  | cons a l ih =>
    intro h
    have h2 : (f a).2 = none := h a (List.mem_cons_self _ _)
    have hfa : f a = ((f a).1, none) := by rw [← h2]
    simp only [runSeq]
    rw [hfa, ih (fun b hb => h b (List.mem_cons_of_mem _ hb))]
    simp only [concatMap]

/-- When no delivery call throws, one project's run is its pure digests. -/
theorem projectReminderRun_noThrow (users : String → Option User)
    (outcome : String → String → SendOutcome) (lo hi : Int)
    (tname : String) (pn : ProjectNode)
    (hnt : ∀ pid uid m, outcome pid uid ≠ SendOutcome.thrown m) :
    projectReminderRun users outcome lo hi tname pn
      = (projectDigests users lo hi tname pn, none) := by
  unfold projectReminderRun projectDigests
  exact digestFanOut_noThrow users outcome tname pn.pid (hnt pn.pid) (projectGroups lo hi pn)

/-- When no delivery call throws, one tenant's run is its projects' pure
digests in order. -/
theorem tenantReminderRun_noThrow (users : String → Option User)
    (outcome : String → String → SendOutcome) (lo hi : Int) (tn : TenantNode)
    (hnt : ∀ pid uid m, outcome pid uid ≠ SendOutcome.thrown m) :
    tenantReminderRun users outcome lo hi tn
      = (concatMap (projectDigests users lo hi tn.name) tn.projects, none) := by
  unfold tenantReminderRun
  have h1 : ∀ pn ∈ tn.projects,
      (projectReminderRun users outcome lo hi tn.name pn).2 = none := by
    intro pn _
    rw [projectReminderRun_noThrow users outcome lo hi tn.name pn hnt]
  rw [runSeq_noThrow _ tn.projects h1]
  have h2 : ∀ pn ∈ tn.projects,
      (projectReminderRun users outcome lo hi tn.name pn).1
        = projectDigests users lo hi tn.name pn := by
    intro pn _
    rw [projectReminderRun_noThrow users outcome lo hi tn.name pn hnt]
  rw [concatMap_congr _ _ tn.projects h2]

/-- When no delivery call throws, the whole scheduled run reaches every
tenant and project, issues exactly the pure digests of the run, and the
run-level catch never fires. -/
theorem sendDueDateRemindersRun_noThrow (users : String → Option User)
    (outcome : String → String → SendOutcome) (lo hi : Int)
    (tenants : List TenantNode)
    (hnt : ∀ pid uid m, outcome pid uid ≠ SendOutcome.thrown m) :
    sendDueDateRemindersRun users outcome lo hi tenants
      = (sendDueDateReminders users lo hi tenants, none) := by
  unfold sendDueDateRemindersRun sendDueDateReminders
  have h1 : ∀ tn ∈ tenants, (tenantReminderRun users outcome lo hi tn).2 = none := by
    intro tn _
    rw [tenantReminderRun_noThrow users outcome lo hi tn hnt]
  rw [runSeq_noThrow _ tenants h1]
  have h2 : ∀ tn ∈ tenants,
      (tenantReminderRun users outcome lo hi tn).1
        = concatMap (projectDigests users lo hi tn.name) tn.projects := by
    intro tn _
    rw [tenantReminderRun_noThrow users outcome lo hi tn hnt]
  rw [concatMap_congr _ _ tenants h2]

/-- C3 (amended): in both fan-out handlers — comment notification and
scheduled digest — errors are caught only at the whole-run level, not per
recipient.  A delivery error merely returned by the email service is
never inspected, so later recipients are unaffected and the run succeeds
(for the digest it then delivers exactly its pure digests across all
tenants and projects); but an exception thrown by the delivery call for
one recipient aborts processing of every remaining recipient of that loop
— and, for the scheduled digest, every remaining grouped assignee,
project and tenant of the run — with the exception surfacing as the
handler's failure result. -/
theorem c3_fanout_error_isolation (users : String → Option User)
    (outcome : String → SendOutcome) (outcome2 : String → String → SendOutcome)
    (recips : List String) (lo hi : Int) (tenants : List TenantNode) :
    ((∀ uid m, outcome uid ≠ SendOutcome.thrown m) →
      (commentFanOut users outcome recips).2 = none
      ∧ ∀ uid u, uid ∈ recips → users uid = some u →
          allows u Category.comments = true →
          u.email ∈ (commentFanOut users outcome recips).1)
    ∧ (∀ uid rest u m, users uid = some u →
        allows u Category.comments = true →
        outcome uid = SendOutcome.thrown m →
        commentFanOut users outcome (uid :: rest) = ([u.email], some m))
    ∧ ((∀ pid uid m, outcome2 pid uid ≠ SendOutcome.thrown m) →
        sendDueDateRemindersRun users outcome2 lo hi tenants
          = (sendDueDateReminders users lo hi tenants, none))
    ∧ (∀ tname pid g rest u m, users g.1 = some u →
        allows u Category.dueReminders = true →
        outcome2 pid g.1 = SendOutcome.thrown m →
        digestFanOut users outcome2 tname pid (g :: rest)
          = ([⟨g.1, u.email, tname, g.2⟩], some m))
    ∧ (∀ tname tslug pn rest es m,
        projectReminderRun users outcome2 lo hi tname pn = (es, some m) →
        tenantReminderRun users outcome2 lo hi ⟨tname, tslug, pn :: rest⟩ = (es, some m))
    ∧ (∀ tn rest es m,
        tenantReminderRun users outcome2 lo hi tn = (es, some m) →
        sendDueDateRemindersRun users outcome2 lo hi (tn :: rest) = (es, some m)) :=
  ⟨fun hnt => commentFanOut_noThrow users outcome hnt recips,
   fun uid rest u m hu hal ho => commentFanOut_abort users outcome uid rest u m hu hal ho,
   fun hnt => sendDueDateRemindersRun_noThrow users outcome2 lo hi tenants hnt,
   fun tname pid g rest u m hu hal ho =>
     digestFanOut_abort users outcome2 tname pid g rest u m hu hal ho,
   fun tname tslug pn rest es m h => runSeq_abort _ pn rest es m h,
   fun tn rest es m h => runSeq_abort _ tn rest es m h⟩

/-- Witness for C3 at concrete inputs: with throw-free outcomes the second
comment recipient still gets a delivery call, and the scheduled run over a
concrete tenant tree succeeds with exactly its pure digests. -/
theorem c3_fanout_error_isolation_witness :
    "e3@x" ∈ (commentFanOut c3Users (fun _ => SendOutcome.ok "i1")
        (commentRecipients "" "u1" "hey @[B](u2) and @[C](u3)")).1
    ∧ sendDueDateRemindersRun c3Users (fun _ _ => SendOutcome.ok "i1") 0 2
        [twoProjectTenant]
      = (sendDueDateReminders c3Users 0 2 [twoProjectTenant], none) :=
  ⟨((c3_fanout_error_isolation c3Users (fun _ => SendOutcome.ok "i1")
      (fun _ _ => SendOutcome.ok "i1")
      (commentRecipients "" "u1" "hey @[B](u2) and @[C](u3)") 0 2 [twoProjectTenant]).1
      (fun _ _ h => SendOutcome.noConfusion h)).2
      "u3" ⟨"C", "e3@x", none⟩ (by decide) rfl rfl,
   (c3_fanout_error_isolation c3Users (fun _ => SendOutcome.ok "i1")
      (fun _ _ => SendOutcome.ok "i1")
      (commentRecipients "" "u1" "hey @[B](u2) and @[C](u3)") 0 2 [twoProjectTenant]).2.2.1
      (fun _ _ _ h => SendOutcome.noConfusion h)⟩

/-- C3 counterexample: the delivery for the first recipient `u2` throws,
and the second eligible recipient `u3` gets NO delivery attempt in that
run — the error is not isolated per recipient. -/
theorem c3_fanout_error_isolation_counterexample :
    sendCommentNotification c3Users c3Outcome "" "u1" "hey @[B](u2) and @[C](u3)"
      = (["e2@x"], some "net down")
    ∧ "e3@x" ∉ (sendCommentNotification c3Users c3Outcome "" "u1"
        "hey @[B](u2) and @[C](u3)").1 := by
  refine ⟨rfl, ?_⟩
  intro h
  rw [show sendCommentNotification c3Users c3Outcome "" "u1" "hey @[B](u2) and @[C](u3)"
        = (["e2@x"], some "net down") from rfl] at h
  simp at h

/-- Membership in a concatenation of images. -/
theorem mem_concatMap (f : α → List β) (b : β) :
    ∀ l : List α, b ∈ concatMap f l ↔ ∃ a ∈ l, b ∈ f a := by
  intro l
  induction l with
  | nil => simp [concatMap]
  | cons a l ih =>
    simp only [concatMap, List.mem_append, ih]
    constructor
    · rintro (h | ⟨x, hx, hbx⟩)
      · exact ⟨a, List.mem_cons_self _ _, h⟩
      · exact ⟨x, List.mem_cons_of_mem _ hx, hbx⟩
    · rintro ⟨x, hx, hbx⟩
      rcases List.mem_cons.mp hx with rfl | hx'
      · exact Or.inl hbx
      · exact Or.inr ⟨x, hx', hbx⟩

/-- The keys of `tasksByAssignee` after adding one task. -/
theorem mem_groupAdd_keys (uid x : String) (e : TaskEntry) :
    ∀ g : List (String × List TaskEntry),
      x ∈ (groupAdd g uid e).map Prod.fst ↔ x ∈ g.map Prod.fst ∨ x = uid := by
  intro g
  induction g with
  | nil => simp [groupAdd]
  | cons kv g ih =>
    obtain ⟨k, ts⟩ := kv
    simp only [groupAdd]
    by_cases hk : k = uid
    · rw [if_pos hk]
      subst hk
      simp only [List.map_cons, List.mem_cons]
      tauto
    · rw [if_neg hk]
      simp only [List.map_cons, List.mem_cons, ih]
      tauto

/-- Adding one task keeps the keys of `tasksByAssignee` duplicate free. -/
theorem nodup_groupAdd_keys (uid : String) (e : TaskEntry) :
    ∀ g : List (String × List TaskEntry),
      (g.map Prod.fst).Nodup → ((groupAdd g uid e).map Prod.fst).Nodup := by
  intro g
  induction g with
  | nil => intro _; simp [groupAdd]
  | cons kv g ih =>
    obtain ⟨k, ts⟩ := kv
    intro hnd
    rw [List.map_cons] at hnd
    rcases List.nodup_cons.mp hnd with ⟨hk_nin, hnd'⟩
    simp only [groupAdd]
    by_cases hk : k = uid
    · rw [if_pos hk]
      simpa using hnd
    · rw [if_neg hk]
      rw [List.map_cons]
      refine List.nodup_cons.mpr ⟨?_, ih hnd'⟩
      intro hmem
      rcases (mem_groupAdd_keys uid k e g).mp hmem with h | h
      · exact hk_nin h
      · exact hk h

/-- The keys produced by folding a task list into `tasksByAssignee`. -/
theorem mem_groupFold_keys (pn : ProjectNode) (x : String) (l : List (String × RTask)) :
    ∀ g : List (String × List TaskEntry),
      x ∈ (l.foldl (fun g p =>
          if p.2.assignedTo ≠ "" then groupAdd g p.2.assignedTo (taskEntry pn p) else g) g).map
          Prod.fst
      ↔ x ∈ g.map Prod.fst ∨ ∃ p ∈ l, p.2.assignedTo = x ∧ x ≠ "" := by
  induction l with
  | nil => intro g; simp
  | cons p l ih =>
    intro g
    rw [List.foldl_cons, ih]
    by_cases hp : p.2.assignedTo = ""
    · rw [if_neg (by simp [hp])]
      constructor
      · rintro (h | ⟨q, hq, hqa, hx⟩)
        · exact Or.inl h
        · exact Or.inr ⟨q, List.mem_cons_of_mem _ hq, hqa, hx⟩
      · rintro (h | ⟨q, hq, hqa, hx⟩)
        · exact Or.inl h
        · rcases List.mem_cons.mp hq with rfl | hq'
          · exact absurd (hqa.symm.trans hp) hx
          · exact Or.inr ⟨q, hq', hqa, hx⟩
    · rw [if_pos hp, mem_groupAdd_keys]
      constructor
      · rintro ((h | rfl) | ⟨q, hq, hqa, hx⟩)
        · exact Or.inl h
        · exact Or.inr ⟨p, List.mem_cons_self _ _, rfl, hp⟩
        · exact Or.inr ⟨q, List.mem_cons_of_mem _ hq, hqa, hx⟩
      · rintro (h | ⟨q, hq, hqa, hx⟩)
        · exact Or.inl (Or.inl h)
        · rcases List.mem_cons.mp hq with rfl | hq'
          · exact Or.inl (Or.inr hqa.symm)
          · exact Or.inr ⟨q, hq', hqa, hx⟩

/-- Folding a task list keeps the keys duplicate free. -/
theorem nodup_groupFold_keys (pn : ProjectNode) (l : List (String × RTask)) :
    ∀ g : List (String × List TaskEntry),
      (g.map Prod.fst).Nodup →
      ((l.foldl (fun g p =>
          if p.2.assignedTo ≠ "" then groupAdd g p.2.assignedTo (taskEntry pn p) else g) g).map
          Prod.fst).Nodup := by
  induction l with
  | nil => intro g h; simpa using h
  | cons p l ih =>
    intro g h
    rw [List.foldl_cons]
    refine ih _ ?_
    split
    · exact nodup_groupAdd_keys _ _ _ h
    · exact h

/-- A user id is a key of one project's `tasksByAssignee` exactly when the
project holds a qualifying task with that (non-empty) assignee. -/
theorem mem_projectGroups_keys (lo hi : Int) (pn : ProjectNode) (x : String) :
    x ∈ (projectGroups lo hi pn).map Prod.fst ↔
      ∃ p ∈ pn.tasks, qualifies lo hi p.2 = true ∧ p.2.assignedTo = x ∧ x ≠ "" := by
  unfold projectGroups
  rw [mem_groupFold_keys]
  simp only [List.map_nil, List.not_mem_nil, false_or]
  constructor
  · rintro ⟨p, hp, ha, hx⟩
    rcases List.mem_filter.mp hp with ⟨hp', hq⟩
    exact ⟨p, hp', hq, ha, hx⟩
  · rintro ⟨p, hp, hq, ha, hx⟩
    exact ⟨p, List.mem_filter.mpr ⟨hp, hq⟩, ha, hx⟩

/-- One project's `tasksByAssignee` has duplicate-free keys. -/
theorem nodup_projectGroups_keys (lo hi : Int) (pn : ProjectNode) :
    ((projectGroups lo hi pn).map Prod.fst).Nodup := by
  unfold projectGroups
  exact nodup_groupFold_keys pn _ [] (by simp)

/-- A user receives one of a project's digests exactly when they are a key
of its grouping and their user record exists and allows `dueReminders`. -/
theorem mem_projectDigests_userId (users : String → Option User) (lo hi : Int)
    (tname : String) (pn : ProjectNode) (uid : String) :
    (∃ e ∈ projectDigests users lo hi tname pn, e.userId = uid) ↔
      (uid ∈ (projectGroups lo hi pn).map Prod.fst
        ∧ ∃ u, users uid = some u ∧ allows u Category.dueReminders = true) := by
  unfold projectDigests
  constructor
  · rintro ⟨e, he, hid⟩
    rcases List.mem_filterMap.mp he with ⟨g, hg, hfg⟩
    split at hfg
    · exact Option.noConfusion hfg
    · rename_i u hu
      split at hfg
      · rename_i hal
        injection hfg with hfg
        subst hfg
        have hgid : g.1 = uid := hid
        subst hgid
        exact ⟨List.mem_map.mpr ⟨g, hg, rfl⟩, u, hu, hal⟩
      · exact Option.noConfusion hfg
  · rintro ⟨hgk, u, hu, hal⟩
    rcases List.mem_map.mp hgk with ⟨g, hg, hgid⟩
    subst hgid
    refine ⟨⟨g.1, u.email, tname, g.2⟩, List.mem_filterMap.mpr ⟨g, hg, ?_⟩, rfl⟩
    rw [hu]
    simp [hal]

/-- The digest recipients of one project are a sublist of its grouping
keys. -/
theorem projectDigests_userIds_sublist (users : String → Option User) (lo hi : Int)
    (tname : String) (pn : ProjectNode) :
    ((projectDigests users lo hi tname pn).map DigestEmail.userId).Sublist
      ((projectGroups lo hi pn).map Prod.fst) := by
  unfold projectDigests
  induction projectGroups lo hi pn with
  | nil => simp
  | cons g gs ih =>
    rw [List.filterMap_cons]
    split
    · rw [List.map_cons]
      exact ih.cons _
    · rename_i e heq
      have hid : e.userId = g.1 := by
        split at heq
        · exact Option.noConfusion heq
        · rename_i u hu
          split at heq
          · injection heq with heq
            rw [← heq]
          · exact Option.noConfusion heq
      rw [List.map_cons, List.map_cons, ← hid]
      exact ih.cons₂ _

/-- Within one project, a user gets at most one digest email. -/
theorem nodup_projectDigests_userIds (users : String → Option User) (lo hi : Int)
    (tname : String) (pn : ProjectNode) :
    ((projectDigests users lo hi tname pn).map DigestEmail.userId).Nodup :=
  List.Nodup.sublist (projectDigests_userIds_sublist users lo hi tname pn)
    (nodup_projectGroups_keys lo hi pn)

/-- C2 (amended): digest grouping is per `(assignee, project)`, not per
`(assignee, tenant)` — the grouping map restarts at each project boundary,
so within ONE project each assignee receives at most one digest, and the
spec's three-task example holds when the tasks share a project: exactly
two digest emails, one to `A` listing its 2 tasks, one to `B` listing 1.
A user with qualifying tasks in several projects of the same tenant gets
one digest per such project. -/
theorem c2_digest_grouping (users : String → Option User) (lo hi : Int)
    (tname : String) (pn : ProjectNode) :
    ((projectDigests users lo hi tname pn).map DigestEmail.userId).Nodup
    ∧ sendDueDateReminders digestUsers 0 2 [threeTaskTenant]
        = [⟨"A", "a@x", "T",
            [⟨"t1", "x1", "p1", "P1", some 0, "open"⟩,
             ⟨"t2", "x2", "p1", "P1", some 1, "open"⟩]⟩,
           ⟨"B", "b@x", "T",
            [⟨"t3", "x3", "p1", "P1", some 0, "open"⟩]⟩] :=
  ⟨nodup_projectDigests_userIds users lo hi tname pn, rfl⟩

/-- Witness for C2 at a concrete input: the three-task example groups into
two digests with 2 and 1 tasks respectively. -/
theorem c2_digest_grouping_witness :
    (sendDueDateReminders digestUsers 0 2 [threeTaskTenant]).map
        (fun e => (e.userId, e.tasks.length))
      = [("A", 2), ("B", 1)] := by
  rw [(c2_digest_grouping digestUsers 0 2 "T" ⟨"p", "P", []⟩).2]
  rfl

/-- C2 counterexample: one tenant, two projects, each with one qualifying
task assigned to `A` — the run produces TWO digest emails to `A` for that
tenant (one per project), not one digest listing both tasks. -/
theorem c2_digest_grouping_counterexample :
    sendDueDateReminders digestUsers 0 2 [twoProjectTenant]
      = [⟨"A", "a@x", "T", [⟨"t1", "x1", "p1", "P1", some 0, "open"⟩]⟩,
         ⟨"A", "a@x", "T", [⟨"t2", "x2", "p2", "P2", some 0, "open"⟩]⟩]
    ∧ ((sendDueDateReminders digestUsers 0 2 [twoProjectTenant]).filter
        (fun e => e.userId == "A")).length = 2 := ⟨rfl, rfl⟩

/-- C8: the digest recipients of a run are exactly the users (existing,
with `dueReminders` allowed) who are the non-empty assignee of at least
one qualifying task across all tenants and projects, where qualifying
means `dueDate` in the half-open window `[lo, hi)` (today 00:00 up to but
excluding day-after-tomorrow 00:00) and status not `"done"`. -/
theorem c8_digest_recipients (users : String → Option User) (lo hi : Int)
    (tenants : List TenantNode) (uid : String) :
    (∃ e ∈ sendDueDateReminders users lo hi tenants, e.userId = uid) ↔
      ∃ u, users uid = some u ∧ allows u Category.dueReminders = true ∧
        ∃ tn ∈ tenants, ∃ pn ∈ tn.projects, ∃ p ∈ pn.tasks,
          p.2.assignedTo = uid ∧ uid ≠ "" ∧ qualifies lo hi p.2 = true := by
  unfold sendDueDateReminders
  constructor
  · rintro ⟨e, he, hid⟩
    rcases (mem_concatMap _ _ _).mp he with ⟨tn, htn, he2⟩
    rcases (mem_concatMap _ _ _).mp he2 with ⟨pn, hpn, he3⟩
    rcases (mem_projectDigests_userId users lo hi tn.name pn uid).mp ⟨e, he3, hid⟩ with
      ⟨hk, u, hu, hal⟩
    rcases (mem_projectGroups_keys lo hi pn uid).mp hk with ⟨p, hp, hq, ha, hne⟩
    exact ⟨u, hu, hal, tn, htn, pn, hpn, p, hp, ha, hne, hq⟩
  · rintro ⟨u, hu, hal, tn, htn, pn, hpn, p, hp, ha, hne, hq⟩
    have hk := (mem_projectGroups_keys lo hi pn uid).mpr ⟨p, hp, hq, ha, hne⟩
    rcases (mem_projectDigests_userId users lo hi tn.name pn uid).mpr ⟨hk, u, hu, hal⟩ with
      ⟨e, he, hid⟩
    exact ⟨e, (mem_concatMap _ _ _).mpr ⟨tn, htn, (mem_concatMap _ _ _).mpr ⟨pn, hpn, he⟩⟩, hid⟩

/-- Witness for C8 at a concrete input: `B`, assignee of one qualifying
task in the three-task tenant, is a digest recipient of the run. -/
theorem c8_digest_recipients_witness :
    ∃ e ∈ sendDueDateReminders digestUsers 0 2 [threeTaskTenant], e.userId = "B" :=
  (c8_digest_recipients digestUsers 0 2 [threeTaskTenant] "B").mpr
    ⟨⟨"Bob", "b@x", none⟩, rfl, rfl, threeTaskTenant, List.mem_cons_self _ _,
     ⟨"p1", "P1",
      [("t1", ⟨"x1", "A", some 0, "open"⟩),
       ("t2", ⟨"x2", "A", some 1, "open"⟩),
       ("t3", ⟨"x3", "B", some 0, "open"⟩)]⟩, List.mem_cons_self _ _,
     ("t3", ⟨"x3", "B", some 0, "open"⟩),
     List.mem_cons_of_mem _ (List.mem_cons_of_mem _ (List.mem_cons_self _ _)),
     rfl, by decide, rfl⟩
